import Mathlib

/-!
A verification development for the layout-analysis engine
(`internal/analyzer/analyzer.go`, `internal/analyzer/size.go`) and the parser
data model (`internal/parser/tag.go`, `internal/parser/ast.go`) of the
`layout` repository.

The Go code is embedded shallowly:

* Go structs become Lean structures with the same field names (Go's
  `*TypeAnnotation` / `*FieldLayout` pointers are modelled as values; the
  claims never exercise nil pointers for these).
* Go `int` is modelled as `Int` (no arithmetic in the analyzer comes close
  to 64-bit overflow on the inputs treated here).
* A Go function that can raise a runtime panic (integer division by zero in
  `validateCountCapacity`) or fail to terminate (the unguarded alias-chain
  loop in `ResolveType`) returns in the `Outcome` type below, whose
  `panics` / `diverges` constructors model those two abnormal outcomes.
* Go error values (built with `fmt.Errorf`) are modelled as inductive error
  types with one constructor per `fmt.Errorf` site, carrying the same data
  that is interpolated into the format string.
-/

namespace Analyzer

/-- Result of running a piece of Go code: a value, a runtime panic, or an
infinite loop (non-termination). -/
inductive Outcome (α : Type) where
  | panics : Outcome α
  | diverges : Outcome α
  | ok : α → Outcome α
deriving DecidableEq, Repr

/-! ## Parser data model (`internal/parser/tag.go`, `ast.go`, `annotation.go`) -/

/-- `parser.PackDirection`. -/
inductive PackDirection where
  | Fixed : PackDirection
  | StartEnd : PackDirection
  | EndStart : PackDirection
deriving DecidableEq, Repr

/-- `parser.FieldLayout`: per-field placement descriptor. -/
structure FieldLayout where
  Offset : Int
  Direction : PackDirection
  StartAt : Int
  CountField : String
  From : String
  OffsetField : String
  SizeField : String
  Region : String
deriving DecidableEq, Repr

/-- `parser.Field`. In Go `Layout` is a `*FieldLayout`; modelled as a value. -/
structure Field where
  Name : String
  GoType : String
  Layout : FieldLayout
deriving DecidableEq, Repr

/-- `parser.TypeAnnotation` (the Go name ends in a reserved word of this
development's tooling, hence the shortened Lean name). Only `Size` is read
by the analyzer. -/
structure TypeAnno where
  Size : Int
  Endian : String
  Mode : String
  Align : Int
  Allocator : String
deriving DecidableEq, Repr

/-- `parser.TypeLayout`. In Go `Anno` is a `*TypeAnnotation`; modelled as a
value. -/
structure TypeLayout where
  Name : String
  Anno : TypeAnno
  Fields : List Field
deriving DecidableEq, Repr

/-! ## Type registry (`internal/analyzer/size.go`) -/

/-- Errors produced by `SizeOf` / `TypeRegistry.SizeOf`, one constructor per
`fmt.Errorf` site in `size.go`. -/
inductive SizeErr where
  /-- "pointer types not supported: %s" -/
  | pointerNotSupported : String → SizeErr
  /-- "unknown type: %s (use type registry for structs)" -/
  | unknownPrimitive : String → SizeErr
  /-- "invalid array type: %s" -/
  | invalidArrayType : String → SizeErr
  /-- "array element: %w" -/
  | arrayElement : SizeErr → SizeErr
  /-- "array of dynamic type not supported: %s" -/
  | arrayOfDynamic : String → SizeErr
  /-- "unknown type: %s (not registered)" -/
  | notRegistered : String → SizeErr
deriving DecidableEq, Repr

/-- `strings.HasPrefix`, computed on the character lists (Lean's own
`String.startsWith` works on byte positions and does not reduce inside the
kernel, which the concrete evaluations below need). -/
def strStartsWith (s pre : String) : Bool :=
  pre.toList.isPrefixOf s.toList

/-- `strings.Contains(s, c)` for a single-character needle. -/
def strContainsChar (s : String) (c : Char) : Bool :=
  s.toList.contains c

/-- `s[n:]` / `String.drop`, computed on the character lists. -/
def strDrop (s : String) (n : Nat) : String :=
  ⟨s.toList.drop n⟩

/-- `strings.Split` on a single-character separator, on character lists. -/
def splitCharsOn (c : Char) : List Char → List (List Char)
  | [] => [[]]
  | x :: xs =>
    if x = c then [] :: splitCharsOn c xs
    else
      match splitCharsOn c xs with
      | [] => [[x]]
      | g :: gs => (x :: g) :: gs

/-- `strings.Split(s, ".")` (the separator is a single character, so the
character-list split agrees with Go). -/
def strSplitOnDot (s : String) : List String :=
  (splitCharsOn '.' s.toList).map String.mk

/-- Decimal digits to a natural number (`strconv.Atoi` on a digit string;
overflow of Go `int` is not modelled). -/
def natOfDigits (ds : List Char) : Nat :=
  ds.foldl (fun acc c => 10 * acc + (c.toNat - 48)) 0

/-- The regular expression `^\[(\d+)\](.+)$` of `size.go` (`arrayRe`):
returns the array length and element type of `[N]T` notation, or `none`
when the string does not match. -/
def arrayParse (goType : String) : Option (Nat × String) :=
  match goType.toList with
  | '[' :: rest =>
    let ds := rest.takeWhile Char.isDigit
    if ds.isEmpty then none
    else
      match rest.drop ds.length with
      | ']' :: tl => if tl.isEmpty then none else some (natOfDigits ds, String.mk tl)
      | _ => none
  | _ => none

/-- `analyzer.SizeOf` (package-level, `size.go` lines 13-43) together with
`arraySize` (lines 47-70), fuelled: `arraySize` recurses into `SizeOf` on the
element type, which is at least three characters shorter (the stripped
`[N]`), so fuel `goType.length + 1` never runs out and the fuel-0 branch is
unreachable. -/
def SizeOfFuel : Nat → String → Except SizeErr Int
  | 0, goType => .error (.unknownPrimitive goType)
  | n + 1, goType =>
    match goType with
    | "uint8" | "int8" | "byte" | "bool" => .ok 1
    | "uint16" | "int16" => .ok 2
    | "uint32" | "int32" | "float32" => .ok 4
    | "uint64" | "int64" | "float64" => .ok 8
    | _ =>
      if strStartsWith goType "[]" then .ok (-1)
      else if strStartsWith goType "[" && strContainsChar goType ']' then
        match arrayParse goType with
        | none => .error (.invalidArrayType goType)
        | some (k, elemType) =>
          match SizeOfFuel n elemType with
          | .error e => .error (.arrayElement e)
          | .ok elemSize =>
            if elemSize < 0 then .error (.arrayOfDynamic goType)
            else .ok ((k : Int) * elemSize)
      else if strStartsWith goType "*" then .error (.pointerNotSupported goType)
      else .error (.unknownPrimitive goType)

/-- `analyzer.SizeOf`: size in bytes of a Go type, `-1` for slices. -/
def SizeOf (goType : String) : Except SizeErr Int :=
  SizeOfFuel (goType.length + 1) goType

/-- `analyzer.TypeRegistry`: struct sizes and type aliases. Go maps are
modelled as association lists searched front-to-back; `Register` prepends, so
a later registration shadows an earlier one exactly as a map overwrite. -/
structure TypeRegistry where
  types : List (String × Int)
  aliases : List (String × String)
deriving DecidableEq, Repr

/-- First value bound to `key`, i.e. a Go map lookup. -/
def assocFind {α : Type} : List (String × α) → String → Option α
  | [], _ => none
  | (k, v) :: rest, key => if k = key then some v else assocFind rest key

/-- `analyzer.NewTypeRegistry`. -/
def NewTypeRegistry : TypeRegistry := ⟨[], []⟩

/-- `TypeRegistry.Register`. -/
def TypeRegistry.Register (r : TypeRegistry) (name : String) (size : Int) : TypeRegistry :=
  { r with types := (name, size) :: r.types }

/-- `TypeRegistry.RegisterAlias`. -/
def TypeRegistry.RegisterAlias (r : TypeRegistry) (aliasName underlying : String) : TypeRegistry :=
  { r with aliases := (aliasName, underlying) :: r.aliases }

/-- `TypeRegistry.Lookup` (the Go `(size, ok)` pair as an `Option`). -/
def TypeRegistry.Lookup (r : TypeRegistry) (name : String) : Option Int :=
  assocFind r.types name

/-- The unguarded loop of `TypeRegistry.ResolveType` (`size.go` lines
103-113), indexed by the number of loop iterations (map lookups) allowed:
`none` means the loop is still running after `fuel` iterations. -/
def resolveTypeFuel (aliases : List (String × String)) : Nat → String → Option String
  | 0, _ => none
  | n + 1, goType =>
    match assocFind aliases goType with
    | some underlying => resolveTypeFuel aliases n underlying
    | none => some goType

/-- `TypeRegistry.ResolveType`. The Go loop is memoryless and the alias map
is immutable during it, so if any alias name is looked up twice the loop
repeats forever; hence the loop either finishes within `aliases.length + 1`
lookups or never finishes. `none` models the Go code looping forever. -/
def TypeRegistry.ResolveType (r : TypeRegistry) (goType : String) : Option String :=
  resolveTypeFuel r.aliases (r.aliases.length + 1) goType

/-- `TypeRegistry.SizeOf` (`size.go` lines 116-154), fuelled like
`SizeOfFuel` (the array recursion strips at least three characters, so the
fuel-0 branch is unreachable). A cyclic alias chain makes `ResolveType`
diverge, reported as `.diverges`. -/
def SizeOfRegFuel (r : TypeRegistry) : Nat → String → Outcome (Except SizeErr Int)
  | 0, goType => .ok (.error (.notRegistered goType))
  | n + 1, goType =>
    if strStartsWith goType "[]" then .ok (.ok (-1))
    else
      match (if strStartsWith goType "[" then arrayParse goType else none) with
      | some (k, elemType) =>
        match SizeOfRegFuel r n elemType with
        | .panics => .panics
        | .diverges => .diverges
        | .ok (.error e) => .ok (.error e)
        | .ok (.ok elemSize) =>
          if elemSize < 0 then .ok (.error (.arrayOfDynamic goType))
          else .ok (.ok ((k : Int) * elemSize))
      | none =>
        match r.ResolveType goType with
        | none => .diverges
        | some resolved =>
          match SizeOf resolved with
          | .ok size => .ok (.ok size)
          | .error _ =>
            match r.Lookup resolved with
            | some size => .ok (.ok size)
            | none => .ok (.error (.notRegistered goType))

/-- `TypeRegistry.SizeOf`: size via the registry for struct types. -/
def TypeRegistry.SizeOf (r : TypeRegistry) (goType : String) : Outcome (Except SizeErr Int) :=
  SizeOfRegFuel r (goType.length + 1) goType

/-! ## Analyzer data model (`internal/analyzer/analyzer.go`) -/

/-- `analyzer.RegionKind`. -/
inductive RegionKind where
  | FixedRegion : RegionKind
  | DynamicRegion : RegionKind
deriving DecidableEq, Repr

/-- `analyzer.Region`. -/
structure Region where
  Kind : RegionKind
  Start : Int
  Boundary : Int
  Direction : PackDirection
  Field : Field
  ElementSize : Int
  ElementType : String
deriving DecidableEq, Repr

/-- A throwaway `Region` used as the default for `List.getD`; all `getD`
accesses in the theorems below are at indices proved (or computed) to be in
bounds. -/
def region0 : Region :=
  ⟨.FixedRegion, 0, -1, .Fixed, ⟨"", "", ⟨-1, .Fixed, -1, "", "", "", "", ""⟩⟩, 0, ""⟩

/-- Errors produced by `buildRegion`, one constructor per `fmt.Errorf` site
(`analyzer.go` lines 80-152). -/
inductive BErr where
  /-- "cannot determine size: %w" -/
  | cannotDetermineSize : SizeErr → BErr
  /-- "fixed field cannot have dynamic type: %s" -/
  | fixedFieldDynamicType : String → BErr
  /-- "field [%d, %d) exceeds buffer size %d" -/
  | exceedsBuffer : Int → Int → Int → BErr
  /-- "cannot determine element type: %w" -/
  | cannotDetermineElementType : SizeErr → BErr
  /-- "dynamic field must be slice type, got: %s" -/
  | dynamicFieldNotSlice : String → BErr
  /-- "cannot extract element type from: %s" -/
  | cannotExtractElementType : String → BErr
  /-- "cannot determine element size for %s: %w" -/
  | cannotDetermineElementSize : String → SizeErr → BErr
  /-- "element type cannot be dynamic: %s" -/
  | elementTypeDynamic : String → BErr
deriving DecidableEq, Repr

/-- Errors produced by `validateCountFields` and its helpers, one
constructor per `fmt.Errorf` site (`analyzer.go` lines 226-372). -/
inductive VErr where
  /-- "field '%s' (type %s) requires count= (struct slices must specify element count)" -/
  | countRequiredStructSlice : String → String → VErr
  /-- "field '%s' requires count= (no fixed boundary)" -/
  | countRequiredNoFixedBoundary : String → VErr
  /-- "count field '%s' has invalid nested reference (only one level supported)" -/
  | invalidNestedReference : String → VErr
  /-- "count field parent '%s' not found in '%s'" -/
  | countFieldParentNotFound : String → String → VErr
  /-- "count field '%s' must be an integer type (...), got: %s" -/
  | countFieldNotIntegerType : String → String → VErr
  /-- "count field '%s' not found" -/
  | countFieldNotFound : String → VErr
  /-- "count field '%s' (type %s, max value %d) cannot hold max possible elements %d" -/
  | countOverflow : String → String → Int → Int → VErr
deriving DecidableEq, Repr

/-- One entry of `AnalyzedLayout.Errors` (a `[]string` in Go; the formatted
strings are modelled structurally). -/
inductive LErr where
  /-- Phase 1: "%s: %v" (field name, `buildRegion` error). -/
  | fieldErr : String → BErr → LErr
  /-- Phase 3: `err.Error()` of a validator error. -/
  | vErr : VErr → LErr
  /-- Phase 4: "collision: %s [%d, %d) overlaps %s [%d, %d)". -/
  | collision : String → Int → Int → String → Int → Int → LErr
deriving DecidableEq, Repr

/-- `analyzer.AnalyzedLayout`. -/
structure AnalyzedLayout where
  TypeName : String
  BufferSize : Int
  Regions : List Region
  Errors : List LErr
deriving DecidableEq, Repr

/-- `AnalyzedLayout.IsValid`: `len(a.Errors) == 0`. -/
def AnalyzedLayout.IsValid (a : AnalyzedLayout) : Bool :=
  a.Errors.length == 0

/-- The non-nil `error` return values of `Analyze` itself. -/
inductive AnalyzeErr where
  /-- "layout is nil" -/
  | layoutIsNil : AnalyzeErr
  /-- "layout has %d errors" -/
  | layoutHasErrors : Nat → AnalyzeErr
  /-- The error returned by `validateCountFields` and passed through. -/
  | validationErr : VErr → AnalyzeErr
deriving DecidableEq, Repr

/-! ## Region building (phase 1) -/

/-- `analyzer.extractElementType`: `"[]byte" → "byte"`, `""` if not a
slice type of length at least 3. -/
def extractElementType (sliceType : String) : String :=
  if sliceType.length < 3 || !(strStartsWith sliceType "[]") then ""
  else strDrop sliceType 2

/-- `analyzer.buildRegion` (`analyzer.go` lines 80-152). On error Go
returns the partial region together with the error; the partial region is
never used by the caller, so the model returns only the error. -/
def buildRegion (field : Field) (bufferSize : Int) (registry : TypeRegistry) :
    Outcome (Except BErr Region) :=
  let r0 : Region :=
    { Kind := .FixedRegion, Start := 0, Boundary := -1, Direction := .Fixed,
      Field := field, ElementSize := 0, ElementType := "" }
  if field.Layout.Direction = .Fixed then
    match registry.SizeOf field.GoType with
    | .panics => .panics
    | .diverges => .diverges
    | .ok (.error e) => .ok (.error (.cannotDetermineSize e))
    | .ok (.ok size) =>
      if size < 0 then .ok (.error (.fixedFieldDynamicType field.GoType))
      else
        let r := { r0 with Kind := .FixedRegion, Start := field.Layout.Offset,
                           Boundary := field.Layout.Offset + size, Direction := .Fixed }
        if r.Boundary > bufferSize then
          .ok (.error (.exceedsBuffer r.Start r.Boundary bufferSize))
        else .ok (.ok r)
  else
    match registry.SizeOf field.GoType with
    | .panics => .panics
    | .diverges => .diverges
    | .ok (.error e) => .ok (.error (.cannotDetermineElementType e))
    | .ok (.ok size) =>
      if size ≠ -1 then .ok (.error (.dynamicFieldNotSlice field.GoType))
      else
        let elementType := extractElementType field.GoType
        if elementType = "" then .ok (.error (.cannotExtractElementType field.GoType))
        else
          match registry.SizeOf elementType with
          | .panics => .panics
          | .diverges => .diverges
          | .ok (.error e) => .ok (.error (.cannotDetermineElementSize elementType e))
          | .ok (.ok elementSize) =>
            if elementSize < 0 then .ok (.error (.elementTypeDynamic elementType))
            else
              let r1 := { r0 with Kind := .DynamicRegion, Direction := field.Layout.Direction,
                                  ElementSize := elementSize, ElementType := elementType }
              let r2 :=
                if field.Layout.StartAt ≥ 0 then { r1 with Start := field.Layout.StartAt }
                else if field.Layout.Direction = .EndStart then { r1 with Start := bufferSize }
                else { r1 with Start := 0 }
              .ok (.ok r2)

/-- Phase 1 of `Analyze` (`analyzer.go` lines 49-56): build a region per
field, collecting per-field errors and continuing past failures. Regions
and errors come out in field order, exactly as the Go `append` loop
produces them. -/
def buildPhase (bufferSize : Int) (registry : TypeRegistry) :
    List Field → Outcome (List Region × List LErr)
  | [] => .ok ([], [])
  | f :: rest =>
    match buildRegion f bufferSize registry with
    | .panics => .panics
    | .diverges => .diverges
    | .ok (.error e) =>
      match buildPhase bufferSize registry rest with
      | .panics => .panics
      | .diverges => .diverges
      | .ok (rs, es) => .ok (rs, .fieldErr f.Name e :: es)
    | .ok (.ok r) =>
      match buildPhase bufferSize registry rest with
      | .panics => .panics
      | .diverges => .diverges
      | .ok (rs, es) => .ok (r :: rs, es)

/-! ## Boundary resolution (phase 2) -/

/-- Stable insertion of a region into a list ordered by `Start`. -/
def insertByStart (r : Region) : List Region → List Region
  | [] => [r]
  | x :: xs => if r.Start ≤ x.Start then r :: x :: xs else x :: insertByStart r xs

/-- The `sort.Slice(a.Regions, ...Start < ...Start)` call of
`calculateBoundaries`, modelled as a stable insertion sort by `Start`. For
fewer than a dozen elements Go's sort runs its insertion sort, which keeps
elements with equal `Start` in their original order, exactly like this
function; every concrete layout below has at most three regions. -/
def sortRegions : List Region → List Region
  | [] => []
  | r :: rest => insertByStart r (sortRegions rest)

/-- `List.mapIdx` with an explicit running index, used to model the
positional `for i := range a.Regions` loops of `calculateBoundaries`. -/
def mapIdxGo (f : Nat → Region → Region) : Nat → List Region → List Region
  | _, [] => []
  | i, r :: rs => f i r :: mapIdxGo f (i + 1) rs

/-- The scan of `findPreviousEnd` (`analyzer.go` lines 199-211) over the
regions before the index, nearest first. -/
def findPrevAux : List Region → Int
  | [] => 0
  | r :: rest =>
    if r.Kind = .FixedRegion then r.Boundary
    else if r.Direction = .StartEnd ∧ r.Field.Layout.StartAt ≥ 0 then r.Start
    else findPrevAux rest

/-- `analyzer.findPreviousEnd`: end offset of the last anchored region
before `idx` (`0` if none). -/
def findPreviousEnd (regions : List Region) (idx : Nat) : Int :=
  findPrevAux ((regions.take idx).reverse)

/-- The scan of `findNextStart` (`analyzer.go` lines 213-224) over the
regions after the index, nearest first. -/
def findNextAux (bufferSize : Int) : List Region → Int
  | [] => bufferSize
  | r :: rest =>
    if r.Kind = .FixedRegion then r.Start
    else if r.Field.Layout.StartAt ≥ 0 then r.Start
    else findNextAux bufferSize rest

/-- `analyzer.findNextStart`: start offset of the next anchored region
after `idx` (`bufferSize` if none). -/
def findNextStart (regions : List Region) (idx : Nat) (bufferSize : Int) : Int :=
  findNextAux bufferSize (regions.drop (idx + 1))

/-- First loop of `calculateBoundaries` (lines 170-177): give every
unanchored `StartEnd` dynamic region its implicit start. The Go loop
mutates in place, but it only ever writes the `Start` of unanchored
`StartEnd` dynamic regions, a field `findPreviousEnd` never reads (it reads
the `Boundary` of fixed regions and the `Start` of explicitly anchored
`StartEnd` regions), so the in-place loop equals this positional map over
the pre-loop list. -/
def calcImplicitStarts (rs : List Region) : List Region :=
  mapIdxGo
    (fun i r =>
      if r.Kind = .DynamicRegion ∧ r.Direction = .StartEnd ∧ r.Field.Layout.StartAt < 0 then
        { r with Start := findPreviousEnd rs i }
      else r)
    0 rs

/-- Second loop of `calculateBoundaries` (lines 180-194): compute each
dynamic region's boundary. The Go loop writes only the `Boundary` of
dynamic regions, which neither `findPreviousEnd` nor `findNextStart` reads,
so it equals this positional map over the post-first-loop list. -/
def calcBoundariesPass (bufferSize : Int) (rs : List Region) : List Region :=
  mapIdxGo
    (fun i r =>
      if r.Kind = .FixedRegion then r
      else if r.Direction = .StartEnd then { r with Boundary := findNextStart rs i bufferSize }
      else { r with Boundary := findPreviousEnd rs i })
    0 rs

/-- `analyzer.calculateBoundaries` (lines 164-197). Its Go `error` return
is always `nil`, so the model returns the updated layout directly. -/
def calculateBoundaries (a : AnalyzedLayout) : AnalyzedLayout :=
  let sorted := sortRegions a.Regions
  let started := calcImplicitStarts sorted
  { a with Regions := calcBoundariesPass a.BufferSize started }

/-! ## Count validation (phase 3) -/

/-- `analyzer.hasNonFixedBefore` (lines 279-286). -/
def hasNonFixedBefore (regions : List Region) (target : Region) : Bool :=
  regions.any fun r => decide (r.Start < target.Start) && (r.Kind == .DynamicRegion)

/-- `analyzer.hasNonFixedAfter` (lines 288-295). -/
def hasNonFixedAfter (regions : List Region) (target : Region) : Bool :=
  regions.any fun r => decide (r.Start > target.Start) && (r.Kind == .DynamicRegion)

/-- `analyzer.isCountType` (lines 390-397). -/
def isCountType (goType : String) : Bool :=
  if goType = "uint8" ∨ goType = "uint16" ∨ goType = "uint32" ∨ goType = "uint64"
      ∨ goType = "int8" ∨ goType = "int16" ∨ goType = "int32" ∨ goType = "int64"
  then true else false

/-- `analyzer.getMaxCountValue` (lines 375-388). Note the Go code gives
`int8` the `uint8` maximum 255 and `int16` the `uint16` maximum 65535, and
caps the 32- and 64-bit types at max-int32. -/
def getMaxCountValue (countType : String) : Int :=
  if countType = "uint8" ∨ countType = "int8" then 255
  else if countType = "uint16" ∨ countType = "int16" then 65535
  else if countType = "uint32" ∨ countType = "int32" then 2147483647
  else if countType = "uint64" ∨ countType = "int64" then 2147483647
  else -1

/-- `analyzer.getCountFieldType` (lines 298-335). -/
def getCountFieldType (countField : String) (layout : TypeLayout) : Except VErr String :=
  if strContainsChar countField '.' then
    match strSplitOnDot countField with
    | [parentField, _child] =>
      if layout.Fields.any (fun f => f.Name == parentField) then .ok ""
      else .error (.countFieldParentNotFound parentField countField)
    | _ => .error (.invalidNestedReference countField)
  else
    match layout.Fields.find? (fun f => f.Name == countField) with
    | some f =>
      if !isCountType f.GoType then .error (.countFieldNotIntegerType countField f.GoType)
      else .ok f.GoType
    | none => .error (.countFieldNotFound countField)

/-- The `maxElements` quantity of `validateCountCapacity` (lines 344-358):
the clamped interval size divided by the element size, rounded up. Defined
only as an observation on a region (the element size must be nonzero for
the Go code to reach this value without panicking). -/
def maxElementsOf (region : Region) : Int :=
  let ms0 := if region.Direction = .StartEnd then region.Boundary - region.Start
             else region.Start - region.Boundary
  let ms := if ms0 < 0 then 0 else ms0
  let q := ms.tdiv region.ElementSize
  if ms.tmod region.ElementSize ≠ 0 then q + 1 else q

/-- `analyzer.validateCountCapacity` (lines 338-372). When
`region.ElementSize = 0` the Go statement `maxSpace / region.ElementSize`
raises a runtime integer-division-by-zero panic, modelled as `.panics`.
`Int.tdiv` / `Int.tmod` truncate toward zero exactly like Go's `/` and
`%`. -/
def validateCountCapacity (region : Region) (countFieldTyp : String) (bufferSize : Int) :
    Outcome (Option VErr) :=
  if countFieldTyp = "" then .ok none
  else
    let ms0 := if region.Direction = .StartEnd then region.Boundary - region.Start
               else region.Start - region.Boundary
    let ms := if ms0 < 0 then 0 else ms0
    if region.ElementSize = 0 then .panics
    else
      let q := ms.tdiv region.ElementSize
      let maxElements := if ms.tmod region.ElementSize ≠ 0 then q + 1 else q
      let maxCountValue := getMaxCountValue countFieldTyp
      if maxCountValue < 0 then .ok none
      else if maxElements > maxCountValue then
        .ok (some (.countOverflow region.Field.Layout.CountField countFieldTyp
                     maxCountValue maxElements))
      else .ok none

/-- The body of the `for _, region := range a.Regions` loop of
`validateCountFields` (lines 228-274) for a single region: `.ok none`
models `continue`, `.ok (some e)` models `return err`. -/
def validateRegionCount (a : AnalyzedLayout) (layout : TypeLayout) (region : Region) :
    Outcome (Option VErr) :=
  if region.Kind ≠ .DynamicRegion then .ok none
  else
    let countField := region.Field.Layout.CountField
    if region.ElementType ≠ "byte" ∧ countField = "" then
      .ok (some (.countRequiredStructSlice region.Field.Name region.Field.GoType))
    else
      let needsCount : Bool :=
        if region.ElementType = "byte" ∧ countField = "" then
          if region.Direction = .EndStart then
            (region.Boundary == 0) && hasNonFixedBefore a.Regions region
          else
            (region.Boundary == a.BufferSize) && hasNonFixedAfter a.Regions region
        else false
      if needsCount then .ok (some (.countRequiredNoFixedBoundary region.Field.Name))
      else if countField ≠ "" then
        match getCountFieldType countField layout with
        | .error e => .ok (some e)
        | .ok countFieldTyp =>
          if !(strContainsChar countField '.') then
            validateCountCapacity region countFieldTyp a.BufferSize
          else .ok none
      else .ok none

/-- The region loop of `validateCountFields`, returning the first error. -/
def validateLoop (a : AnalyzedLayout) (layout : TypeLayout) :
    List Region → Outcome (Option VErr)
  | [] => .ok none
  | r :: rest =>
    match validateRegionCount a layout r with
    | .panics => .panics
    | .diverges => .diverges
    | .ok (some e) => .ok (some e)
    | .ok none => validateLoop a layout rest

/-- `analyzer.validateCountFields` (lines 226-277). -/
def validateCountFields (a : AnalyzedLayout) (layout : TypeLayout) : Outcome (Option VErr) :=
  validateLoop a layout a.Regions

/-! ## Collision detection (phase 4) -/

/-- The adjacent-pair sweep of `detectCollisions` (lines 399-415): an error
for every consecutive pair of fixed regions whose intervals overlap. -/
def collisionErrors : List Region → List LErr
  | r1 :: r2 :: rest =>
    (if r1.Kind = .FixedRegion ∧ r2.Kind = .FixedRegion ∧ r1.Boundary > r2.Start then
      [.collision r1.Field.Name r1.Start r1.Boundary r2.Field.Name r2.Start r2.Boundary]
    else []) ++ collisionErrors (r2 :: rest)
  | _ => []

/-- `analyzer.detectCollisions`: append the sweep's errors. -/
def detectCollisions (a : AnalyzedLayout) : AnalyzedLayout :=
  { a with Errors := a.Errors ++ collisionErrors a.Regions }

/-! ## The pipeline -/

/-- `analyzer.Analyze` (lines 38-78). The Go signature is
`(*TypeLayout, *TypeRegistry) → (*AnalyzedLayout, error)`; the nil-able
input pointer and output pointer become `Option`s, and the `error` result
becomes `Option AnalyzeErr`. -/
def Analyze (layout : Option TypeLayout) (registry : TypeRegistry) :
    Outcome (Option AnalyzedLayout × Option AnalyzeErr) :=
  match layout with
  | none => .ok (none, some .layoutIsNil)
  | some l =>
    match buildPhase l.Anno.Size registry l.Fields with
    | .panics => .panics
    | .diverges => .diverges
    | .ok (regs, errs) =>
      if errs.length > 0 then
        .ok (some ⟨l.Name, l.Anno.Size, regs, errs⟩, some (.layoutHasErrors errs.length))
      else
        let a2 := calculateBoundaries ⟨l.Name, l.Anno.Size, regs, errs⟩
        match validateCountFields a2 l with
        | .panics => .panics
        | .diverges => .diverges
        | .ok (some e) =>
          .ok (some { a2 with Errors := a2.Errors ++ [.vErr e] }, some (.validationErr e))
        | .ok none => .ok (some (detectCollisions a2), none)

/-- The `*AnalyzedLayout` component of a normally returning `Analyze` call. -/
def analyzeOut (layout : Option TypeLayout) (registry : TypeRegistry) :
    Option AnalyzedLayout :=
  match Analyze layout registry with
  | .ok (a, _) => a
  | _ => none

/-- The `error` component of a normally returning `Analyze` call. -/
def analyzeGoErr (layout : Option TypeLayout) (registry : TypeRegistry) :
    Option AnalyzeErr :=
  match Analyze layout registry with
  | .ok (_, e) => e
  | _ => none

/-! ## Spec-side observations

These definitions follow the words of the specification (not the Go
source); the theorems compare the pipeline against them. -/

/-- Lower end of a region's resolved interval as the spec reads it:
`[boundary, start)` for `EndStart` regions, `[start, boundary)` otherwise. -/
def intervalLo (r : Region) : Int :=
  if r.Direction = .EndStart then r.Boundary else r.Start

/-- Upper end of a region's resolved interval as the spec reads it. -/
def intervalHi (r : Region) : Int :=
  if r.Direction = .EndStart then r.Start else r.Boundary

/-- Two resolved intervals share at least one byte. -/
def intervalsIntersect (r1 r2 : Region) : Prop :=
  max (intervalLo r1) (intervalLo r2) < min (intervalHi r1) (intervalHi r2)

instance (r1 r2 : Region) : Decidable (intervalsIntersect r1 r2) := by
  unfold intervalsIntersect; infer_instance

/-- Every consecutive pair of fixed regions is non-overlapping: exactly the
property `detectCollisions` checks. -/
def fixedPairsOk : List Region → Prop
  | r1 :: r2 :: rest =>
    (r1.Kind = .FixedRegion → r2.Kind = .FixedRegion → r1.Boundary ≤ r2.Start) ∧
      fixedPairsOk (r2 :: rest)
  | _ => True

/-- Every fixed region's boundary lies within the buffer: exactly the
upper bound `buildRegion` enforces for fixed fields (no lower bound, and
nothing for dynamic regions, is enforced anywhere). -/
def fixedWithinBuffer (a : AnalyzedLayout) : Prop :=
  ∀ r ∈ a.Regions, r.Kind = .FixedRegion → r.Boundary ≤ a.BufferSize

/-- The `ResolveType` loop exits after some finite number of iterations. -/
def resolveTypeHalts (aliases : List (String × String)) (goType : String) : Prop :=
  ∃ n, (resolveTypeFuel aliases n goType).isSome

/-! ## Concrete layouts used by the theorems -/

/-- Five fields in an 8-byte buffer: a fixed `uint32` at offset −4 (tag
`@-4`; `strconv.Atoi` accepts the sign), a fixed `uint64` at 0, an
unanchored `start-end` `[]byte`, a fixed `uint16` at 2, and a `[]byte`
anchored at 100 growing backward (tag `@100,end-start`). -/
def c1Layout : TypeLayout :=
  ⟨"P1", ⟨8, "little", "copy", 0, ""⟩,
   [⟨"Fneg", "uint32", ⟨-4, .Fixed, -1, "", "", "", "", ""⟩⟩,
    ⟨"F1", "uint64", ⟨0, .Fixed, -1, "", "", "", "", ""⟩⟩,
    ⟨"D", "[]byte", ⟨-1, .StartEnd, -1, "", "", "", "", ""⟩⟩,
    ⟨"F2", "uint16", ⟨2, .Fixed, -1, "", "", "", "", ""⟩⟩,
    ⟨"E", "[]byte", ⟨-1, .EndStart, 100, "", "", "", "", ""⟩⟩]⟩

/-- The layout `Analyze` produces for `c1Layout`. -/
def c1Out : AnalyzedLayout :=
  (analyzeOut (some c1Layout) NewTypeRegistry).getD ⟨"", 0, [], []⟩

/-- A fixed `uint64` at offset 0, an unanchored `start-end` `[]byte`, and a
fixed `uint16` at offset 2, in an 8-byte buffer. -/
def c2Layout : TypeLayout :=
  ⟨"P2", ⟨8, "little", "copy", 0, ""⟩,
   [⟨"F1", "uint64", ⟨0, .Fixed, -1, "", "", "", "", ""⟩⟩,
    ⟨"D", "[]byte", ⟨-1, .StartEnd, -1, "", "", "", "", ""⟩⟩,
    ⟨"F2", "uint16", ⟨2, .Fixed, -1, "", "", "", "", ""⟩⟩]⟩

/-- The layout `Analyze` produces for `c2Layout`. -/
def c2Out : AnalyzedLayout :=
  (analyzeOut (some c2Layout) NewTypeRegistry).getD ⟨"", 0, [], []⟩

/-- An explicitly anchored `start-end` byte-slice region starting at 2
(used as the preceding dynamic region of the C3 witness). -/
def c3r0 : Region :=
  ⟨.DynamicRegion, 2, 0, .StartEnd,
   ⟨"Other", "[]byte", ⟨-1, .StartEnd, 2, "", "", "", "", ""⟩⟩, 1, "byte"⟩

/-- An `end-start` byte-slice region with no count field whose boundary
resolved to 0 (the C3 witness region). -/
def c3R : Region :=
  ⟨.DynamicRegion, 5, 0, .EndStart,
   ⟨"Data", "[]byte", ⟨-1, .EndStart, 5, "", "", "", "", ""⟩⟩, 1, "byte"⟩

/-- A resolved layout holding `c3r0` and `c3R`. -/
def c3A : AnalyzedLayout := ⟨"T3", 8, [c3r0, c3R], []⟩

/-- The (empty-fielded) type layout passed alongside `c3A`; the count-field
lookup is never reached for a region without a count field. -/
def c3L : TypeLayout := ⟨"T3", ⟨8, "little", "copy", 0, ""⟩, []⟩

/-- A struct-element slice region (`[]Elem`) with no count field. -/
def c4Region : Region :=
  ⟨.DynamicRegion, 0, 8, .StartEnd,
   ⟨"Items", "[]Elem", ⟨-1, .StartEnd, -1, "", "", "", "", ""⟩⟩, 4, "Elem"⟩

/-- A resolved layout holding `c4Region`. -/
def c4A : AnalyzedLayout := ⟨"T4", 8, [c4Region], []⟩

/-- The type layout passed alongside `c4A`. -/
def c4L : TypeLayout := ⟨"T4", ⟨8, "little", "copy", 0, ""⟩, []⟩

/-- A type layout with an `int8` sibling count field `N` guarding a
`[]byte` region. -/
def c5Layout : TypeLayout :=
  ⟨"P5", ⟨4096, "little", "copy", 0, ""⟩,
   [⟨"N", "int8", ⟨0, .Fixed, -1, "", "", "", "", ""⟩⟩,
    ⟨"Data", "[]byte", ⟨-1, .StartEnd, -1, "N", "", "", "", ""⟩⟩]⟩

/-- A resolved byte-slice region spanning `[0, 200)` (200 one-byte elements)
counted by the `int8` field `N` of `c5Layout`. -/
def c5Region : Region :=
  ⟨.DynamicRegion, 0, 200, .StartEnd,
   ⟨"Data", "[]byte", ⟨-1, .StartEnd, -1, "N", "", "", "", ""⟩⟩, 1, "byte"⟩

/-- A resolved layout holding `c5Region`. -/
def c5A : AnalyzedLayout := ⟨"P5", 4096, [c5Region], []⟩

/-- A resolved byte-slice region spanning `[0, 300)`, for the C5 witness. -/
def c5w : Region :=
  ⟨.DynamicRegion, 0, 300, .StartEnd,
   ⟨"Data", "[]byte", ⟨-1, .StartEnd, -1, "N", "", "", "", ""⟩⟩, 1, "byte"⟩

/-- Two overlapping fixed `uint64` fields at offsets 0 and 4 in a 4096-byte
buffer (the spec's collision example). -/
def c6Layout : TypeLayout :=
  ⟨"P6", ⟨4096, "little", "copy", 0, ""⟩,
   [⟨"Field1", "uint64", ⟨0, .Fixed, -1, "", "", "", "", ""⟩⟩,
    ⟨"Field2", "uint64", ⟨4, .Fixed, -1, "", "", "", "", ""⟩⟩]⟩

/-- The layout `Analyze` produces for `c6Layout`. -/
def c6Out : AnalyzedLayout :=
  (analyzeOut (some c6Layout) NewTypeRegistry).getD ⟨"", 0, [], []⟩

/-- The spec's `StartEnd`-fill example: `Header` (`uint16` at 0), `Body`
(unanchored `start-end` `[]byte`), `Footer` (`uint64` at 4088), buffer
size 4096. -/
def c7Layout : TypeLayout :=
  ⟨"P7", ⟨4096, "little", "copy", 0, ""⟩,
   [⟨"Header", "uint16", ⟨0, .Fixed, -1, "", "", "", "", ""⟩⟩,
    ⟨"Body", "[]byte", ⟨-1, .StartEnd, -1, "", "", "", "", ""⟩⟩,
    ⟨"Footer", "uint64", ⟨4088, .Fixed, -1, "", "", "", "", ""⟩⟩]⟩

/-- The layout `Analyze` produces for `c7Layout`. -/
def c7Out : AnalyzedLayout :=
  (analyzeOut (some c7Layout) NewTypeRegistry).getD ⟨"", 0, [], []⟩

/-- The phase-1 (pre-resolution) region list of `c7Layout`, as
`buildPhase` produces it. -/
def c7A : AnalyzedLayout :=
  ⟨"P7", 4096,
   [⟨.FixedRegion, 0, 2, .Fixed, ⟨"Header", "uint16", ⟨0, .Fixed, -1, "", "", "", "", ""⟩⟩, 0, ""⟩,
    ⟨.DynamicRegion, 0, -1, .StartEnd, ⟨"Body", "[]byte", ⟨-1, .StartEnd, -1, "", "", "", "", ""⟩⟩, 1, "byte"⟩,
    ⟨.FixedRegion, 4088, 4096, .Fixed, ⟨"Footer", "uint64", ⟨4088, .Fixed, -1, "", "", "", "", ""⟩⟩, 0, ""⟩],
   []⟩

/-- A layout whose first field has an unregistered type (so its region
build fails) and whose second field is fine. -/
def c9Layout : TypeLayout :=
  ⟨"P9", ⟨8, "little", "copy", 0, ""⟩,
   [⟨"Bad", "Mystery", ⟨0, .Fixed, -1, "", "", "", "", ""⟩⟩,
    ⟨"Good", "uint8", ⟨0, .Fixed, -1, "", "", "", "", ""⟩⟩]⟩

/-- The region `buildRegion` produces for the `Good` field of `c9Layout`. -/
def c9GoodRegion : Region :=
  ⟨.FixedRegion, 0, 1, .Fixed, ⟨"Good", "uint8", ⟨0, .Fixed, -1, "", "", "", "", ""⟩⟩, 0, ""⟩

/-- The error entry `buildRegion` produces for the `Bad` field of
`c9Layout`. -/
def c9Err : LErr := .fieldErr "Bad" (.cannotDetermineSize (.notRegistered "Mystery"))

/-- A registry in which the struct type `Empty` is registered with size 0. -/
def c10Registry : TypeRegistry := NewTypeRegistry.Register "Empty" 0

/-- A `[]Empty` dynamic field (element size 0) with a valid `uint8` sibling
count field, in an 8-byte buffer. -/
def c10Layout : TypeLayout :=
  ⟨"P10", ⟨8, "little", "copy", 0, ""⟩,
   [⟨"N", "uint8", ⟨0, .Fixed, -1, "", "", "", "", ""⟩⟩,
    ⟨"Data", "[]Empty", ⟨-1, .StartEnd, -1, "N", "", "", "", ""⟩⟩]⟩

/-! ## Theorems -/

/-- C1 (counterexample): `Analyze` accepts `c1Layout` with no errors
(`IsValid` is true), yet **both** conjuncts of the claim fail at once:
the two fixed regions `F1 = [0, 8)` and `F2 = [2, 4)` intersect (the
interleaved dynamic region keeps them non-consecutive in the start-sorted
order, so `detectCollisions` never compares them), the fixed region
`Fneg = [−4, 0)` starts below 0, and the `EndStart` region `E = [4, 100)`
reaches far past the 8-byte buffer — so neither pairwise disjointness nor
`[0, bufferSize)` containment holds for valid results. -/
theorem c1_counterexample :
    analyzeOut (some c1Layout) NewTypeRegistry = some c1Out ∧
    c1Out.IsValid = true ∧
    c1Out.BufferSize = 8 ∧
    c1Out.Regions.length = 5 ∧
    (c1Out.Regions.getD 1 region0).Kind = .FixedRegion ∧
    (c1Out.Regions.getD 1 region0).Start = 0 ∧ (c1Out.Regions.getD 1 region0).Boundary = 8 ∧
    (c1Out.Regions.getD 3 region0).Kind = .FixedRegion ∧
    (c1Out.Regions.getD 3 region0).Start = 2 ∧ (c1Out.Regions.getD 3 region0).Boundary = 4 ∧
    intervalsIntersect (c1Out.Regions.getD 1 region0) (c1Out.Regions.getD 3 region0) ∧
    intervalLo (c1Out.Regions.getD 0 region0) < 0 ∧
    c1Out.BufferSize < intervalHi (c1Out.Regions.getD 4 region0) :=
  ⟨rfl, rfl, rfl, rfl, rfl, rfl, rfl, rfl, rfl, rfl, by decide, by decide, by decide⟩

/-- C2 (counterexample): `Analyze` accepts `c2Layout` with no errors, yet
its `StartEnd` dynamic region resolves to start 8 and boundary 2 — an
inverted interval, refuting the claimed invariant `start < boundary` for
`StartEnd` regions of valid layouts. -/
theorem c2_counterexample :
    analyzeOut (some c2Layout) NewTypeRegistry = some c2Out ∧
    c2Out.IsValid = true ∧
    (c2Out.Regions.getD 1 region0).Kind = .DynamicRegion ∧
    (c2Out.Regions.getD 1 region0).Direction = .StartEnd ∧
    (c2Out.Regions.getD 1 region0).Start = 8 ∧
    (c2Out.Regions.getD 1 region0).Boundary = 2 ∧
    ¬ (c2Out.Regions.getD 1 region0).Start < (c2Out.Regions.getD 1 region0).Boundary :=
  ⟨rfl, rfl, rfl, rfl, rfl, rfl, by decide⟩

/-- C4: a dynamic region whose element type is not `byte` and which has no
declared count field is always rejected by the validator loop body with
the struct-slice `CountRequired` error, regardless of anchors or resolved
boundaries. -/
theorem c4_struct_slice_count_required (a : AnalyzedLayout) (layout : TypeLayout)
    (region : Region) (hk : region.Kind = .DynamicRegion)
    (hne : region.ElementType ≠ "byte") (hc : region.Field.Layout.CountField = "") :
    validateRegionCount a layout region =
      .ok (some (.countRequiredStructSlice region.Field.Name region.Field.GoType)) := by
  simp [validateRegionCount, hk, hne, hc]

/-- C4 (witness): the theorem applied to the concrete `[]Elem` region. -/
theorem c4_struct_slice_count_required_witness :
    validateRegionCount c4A c4L c4Region =
      .ok (some (.countRequiredStructSlice "Items" "[]Elem")) :=
  c4_struct_slice_count_required c4A c4L c4Region rfl (by decide) rfl

/-- C5 (counterexample): the claim says an `int8` count field fails with
`CountOverflow` as soon as the maximum element count exceeds 127, but the
code gives `int8` the unsigned maximum 255 (`getMaxCountValue`), so a
region with 200 maximum elements counted by the `int8` field `N` passes
validation without any error. -/
theorem c5_counterexample :
    validateRegionCount c5A c5Layout c5Region = .ok none ∧
    getCountFieldType "N" c5Layout = .ok "int8" ∧
    maxElementsOf c5Region = 200 ∧
    getMaxCountValue "int8" = 255 ∧
    (127 : Int) < 200 :=
  ⟨rfl, rfl, rfl, rfl, by decide⟩

/-- C6 (counterexample): on the spec's collision example `Analyze` does
record the `Collision` error naming both fields, but — unlike validator
failures — it then returns a **nil** Go error, refuting the claim that the
error return is non-nil. -/
theorem c6_counterexample :
    Analyze (some c6Layout) NewTypeRegistry = .ok (some c6Out, none) ∧
    c6Out.Errors = [.collision "Field1" 0 8 "Field2" 4 12] :=
  ⟨rfl, rfl⟩

/-- C6 (amended): `Analyze` on the two overlapping fixed `uint64` fields
records exactly one `Collision` error naming `Field1` with interval
`[0, 8)` and `Field2` with interval `[4, 12)` (so `IsValid` is false), and
returns a nil Go error alongside the layout. -/
theorem c6_collision_recorded_nil_error :
    analyzeOut (some c6Layout) NewTypeRegistry = some c6Out ∧
    c6Out.IsValid = false ∧
    c6Out.Errors = [.collision "Field1" 0 8 "Field2" 4 12] ∧
    analyzeGoErr (some c6Layout) NewTypeRegistry = none :=
  ⟨rfl, rfl, rfl, rfl⟩

/-- The `ResolveType` loop on the self-referential alias map `A → A`,
applied to `"A"`, is still running after any number of iterations. -/
theorem resolveTypeFuel_self_alias_none :
    ∀ n, resolveTypeFuel [("A", "A")] n "A" = none
  | 0 => rfl
  | n + 1 => by
      rw [resolveTypeFuel]
      simp only [assocFind, if_pos rfl]
      exact resolveTypeFuel_self_alias_none n

/-- C8: alias resolution does **not** terminate on a self-referential alias
chain: with the alias map `A → A`, the `ResolveType` loop never exits (no
iteration count makes it return), there is no `CyclicAlias` detection, and
`TypeRegistry.SizeOf` consequently diverges. -/
theorem c8_cyclic_alias_diverges :
    ¬ resolveTypeHalts [("A", "A")] "A" ∧
    TypeRegistry.ResolveType ⟨[], [("A", "A")]⟩ "A" = none ∧
    TypeRegistry.SizeOf ⟨[], [("A", "A")]⟩ "A" = .diverges := by
  refine ⟨?_, rfl, rfl⟩
  rintro ⟨n, hn⟩
  rw [resolveTypeFuel_self_alias_none n] at hn
  simp at hn

/-- C10: `Analyze` is not total — on a dynamic field whose element type
`Empty` is registered with size 0 and which declares a valid `uint8` count
field, the capacity check reaches `maxSpace / region.ElementSize` with a
zero divisor and the Go program panics. -/
theorem c10_division_panic : Analyze (some c10Layout) c10Registry = .panics := rfl

/-- An integer count type has a nonnegative maximum. -/
lemma getMaxCountValue_nonneg (ct : String) (h : isCountType ct = true) :
    0 ≤ getMaxCountValue ct := by
  unfold isCountType at h
  split at h
  · next hor => rcases hor with h'|h'|h'|h'|h'|h'|h'|h' <;> subst h' <;> decide
  · exact absurd h (by simp)

/-- An integer count type is not the empty string. -/
lemma isCountType_ne_empty (ct : String) (h : isCountType ct = true) : ct ≠ "" := by
  rintro rfl
  simp [isCountType] at h

/-- C5 (amended): for a declared count field of one of the eight integer
types and a region with positive element size, `validateCountCapacity`
fails with `CountOverflow` exactly when `maxElements` (the clamped interval
size divided by the element size, rounded up) exceeds the maximum the code
assigns to the count type — which is 255 for `int8` (not 127), 65535 for
`int16` (not 32767), and 2147483647 for `uint32` (not 2^32−1), with the
64-bit types also capped at 2147483647. -/
theorem c5_count_capacity (region : Region) (ct : String) (b : Int)
    (h8 : isCountType ct = true) (hes : 0 < region.ElementSize) :
    (validateCountCapacity region ct b =
        .ok (some (.countOverflow region.Field.Layout.CountField ct
                     (getMaxCountValue ct) (maxElementsOf region)))
      ↔ getMaxCountValue ct < maxElementsOf region) ∧
    getMaxCountValue "uint8" = 255 ∧ getMaxCountValue "int8" = 255 ∧
    getMaxCountValue "uint16" = 65535 ∧ getMaxCountValue "int16" = 65535 ∧
    getMaxCountValue "uint32" = 2147483647 ∧ getMaxCountValue "int32" = 2147483647 ∧
    getMaxCountValue "uint64" = 2147483647 ∧ getMaxCountValue "int64" = 2147483647 := by
  refine ⟨?_, by decide, by decide, by decide, by decide, by decide, by decide,
          by decide, by decide⟩
  have hne := isCountType_ne_empty ct h8
  have hmax := getMaxCountValue_nonneg ct h8
  have key : validateCountCapacity region ct b =
      (if maxElementsOf region > getMaxCountValue ct then
        Outcome.ok (some (.countOverflow region.Field.Layout.CountField ct
                            (getMaxCountValue ct) (maxElementsOf region)))
      else Outcome.ok none) := by
    simp only [validateCountCapacity, maxElementsOf]
    rw [if_neg hne, if_neg (by omega : ¬ region.ElementSize = 0), if_neg (not_lt.mpr hmax)]
  by_cases hgt : getMaxCountValue ct < maxElementsOf region
  · rw [key, if_pos hgt]
    exact iff_of_true rfl hgt
  · rw [key, if_neg hgt]
    exact iff_of_false (by simp) hgt

/-- C5 (amended, witness): a `[0, 300)` byte region counted by a `uint8`
field overflows (300 > 255). -/
theorem c5_count_capacity_witness :
    validateCountCapacity c5w "uint8" 4096 =
      .ok (some (.countOverflow "N" "uint8" 255 300)) ∧ 0 < c5w.ElementSize :=
  ⟨(c5_count_capacity c5w "uint8" 4096 rfl (by decide)).1.mpr (by decide), by decide⟩

/-- `hasNonFixedBefore` holds exactly when some dynamic region has a
smaller start than the target. -/
lemma hasNonFixedBefore_iff (regions : List Region) (t : Region) :
    hasNonFixedBefore regions t = true ↔
      ∃ r ∈ regions, r.Kind = .DynamicRegion ∧ r.Start < t.Start := by
  unfold hasNonFixedBefore
  rw [List.any_eq_true]
  constructor
  · rintro ⟨r, hr, hp⟩
    rw [Bool.and_eq_true, decide_eq_true_eq, beq_iff_eq] at hp
    exact ⟨r, hr, hp.2, hp.1⟩
  · rintro ⟨r, hr, hkind, hlt⟩
    refine ⟨r, hr, ?_⟩
    rw [Bool.and_eq_true, decide_eq_true_eq, beq_iff_eq]
    exact ⟨hlt, hkind⟩

/-- `hasNonFixedAfter` holds exactly when some dynamic region has a larger
start than the target. -/
lemma hasNonFixedAfter_iff (regions : List Region) (t : Region) :
    hasNonFixedAfter regions t = true ↔
      ∃ r ∈ regions, r.Kind = .DynamicRegion ∧ t.Start < r.Start := by
  unfold hasNonFixedAfter
  rw [List.any_eq_true]
  constructor
  · rintro ⟨r, hr, hp⟩
    rw [Bool.and_eq_true, decide_eq_true_eq, beq_iff_eq] at hp
    exact ⟨r, hr, hp.2, hp.1⟩
  · rintro ⟨r, hr, hkind, hlt⟩
    refine ⟨r, hr, ?_⟩
    rw [Bool.and_eq_true, decide_eq_true_eq, beq_iff_eq]
    exact ⟨hlt, hkind⟩

/-- C3: a dynamic byte-slice region with no declared count field is flagged
`CountRequired` by the validator loop body exactly when its boundary is
unanchored on the growth side — for `EndStart`, when the resolved boundary
is 0 and some dynamic region has a smaller start; for `StartEnd`, when the
resolved boundary is the buffer size and some dynamic region has a larger
start — and passes (`continue`, no error) in every other case. -/
theorem c3_byte_slice_count_iff (a : AnalyzedLayout) (layout : TypeLayout) (region : Region)
    (hk : region.Kind = .DynamicRegion) (hb : region.ElementType = "byte")
    (hc : region.Field.Layout.CountField = "")
    (hd : region.Direction = .StartEnd ∨ region.Direction = .EndStart) :
    (validateRegionCount a layout region =
        .ok (some (.countRequiredNoFixedBoundary region.Field.Name)) ↔
      ((region.Direction = .EndStart ∧ region.Boundary = 0 ∧
          ∃ r ∈ a.Regions, r.Kind = .DynamicRegion ∧ r.Start < region.Start) ∨
       (region.Direction = .StartEnd ∧ region.Boundary = a.BufferSize ∧
          ∃ r ∈ a.Regions, r.Kind = .DynamicRegion ∧ region.Start < r.Start))) ∧
    (validateRegionCount a layout region =
        .ok (some (.countRequiredNoFixedBoundary region.Field.Name)) ∨
      validateRegionCount a layout region = .ok none) := by
  rcases hd with hdir | hdir
  · constructor
    · cases hB : (region.Boundary == a.BufferSize) && hasNonFixedAfter a.Regions region with
      | true =>
        rw [Bool.and_eq_true, beq_iff_eq] at hB
        refine iff_of_true ?_ (Or.inr ⟨hdir, hB.1, (hasNonFixedAfter_iff _ _).mp hB.2⟩)
        simp [validateRegionCount, hk, hb, hc, hdir, hB.1, hB.2]
      | false =>
        refine iff_of_false ?_ ?_
        · simp only [validateRegionCount, hk, hb, hc, hdir]
          simp [hB]
        · rintro (⟨hE, -, -⟩ | ⟨-, hbd, hex⟩)
          · rw [hdir] at hE; exact absurd hE (by simp)
          · have htrue : ((region.Boundary == a.BufferSize)
                && hasNonFixedAfter a.Regions region) = true := by
              rw [Bool.and_eq_true, beq_iff_eq]
              exact ⟨hbd, (hasNonFixedAfter_iff _ _).mpr hex⟩
            rw [htrue] at hB
            exact absurd hB (by simp)
    · cases hB : (region.Boundary == a.BufferSize) && hasNonFixedAfter a.Regions region with
      | true => exact Or.inl (by simp [validateRegionCount, hk, hb, hc, hdir, hB])
      | false =>
        refine Or.inr ?_
        simp only [validateRegionCount, hk, hb, hc, hdir]
        simp [hB]
  · constructor
    · cases hB : (region.Boundary == 0) && hasNonFixedBefore a.Regions region with
      | true =>
        rw [Bool.and_eq_true, beq_iff_eq] at hB
        refine iff_of_true ?_ (Or.inl ⟨hdir, hB.1, (hasNonFixedBefore_iff _ _).mp hB.2⟩)
        simp [validateRegionCount, hk, hb, hc, hdir, hB.1, hB.2]
      | false =>
        refine iff_of_false ?_ ?_
        · simp only [validateRegionCount, hk, hb, hc, hdir]
          simp [hB]
        · rintro (⟨-, hbd, hex⟩ | ⟨hS, -, -⟩)
          · have htrue : ((region.Boundary == 0)
                && hasNonFixedBefore a.Regions region) = true := by
              rw [Bool.and_eq_true, beq_iff_eq]
              exact ⟨hbd, (hasNonFixedBefore_iff _ _).mpr hex⟩
            rw [htrue] at hB
            exact absurd hB (by simp)
          · rw [hdir] at hS; exact absurd hS (by simp)
    · cases hB : (region.Boundary == 0) && hasNonFixedBefore a.Regions region with
      | true => exact Or.inl (by simp [validateRegionCount, hk, hb, hc, hdir, hB])
      | false =>
        refine Or.inr ?_
        simp only [validateRegionCount, hk, hb, hc, hdir]
        simp [hB]

/-- C3 (witness): the theorem applied to the `end-start` byte slice `c3R`
whose boundary resolved to 0 with the dynamic region `c3r0` before it —
the validator demands a count field. -/
theorem c3_byte_slice_count_iff_witness :
    validateRegionCount c3A c3L c3R =
      .ok (some (.countRequiredNoFixedBoundary "Data")) :=
  (c3_byte_slice_count_iff c3A c3L c3R rfl rfl rfl (Or.inr rfl)).1.mpr
    (Or.inl ⟨rfl, rfl, by decide⟩)

/-- `buildPhase` on a normal return produces exactly one region per
successfully built field and one error entry per failed field, in field
order. -/
lemma buildPhase_ok_filterMap (b : Int) (reg : TypeRegistry) :
    ∀ (fields : List Field) (regs : List Region) (errs : List LErr),
      buildPhase b reg fields = .ok (regs, errs) →
      regs = fields.filterMap (fun f =>
        match buildRegion f b reg with
        | .ok (.ok r) => some r
        | _ => none) ∧
      errs = fields.filterMap (fun f =>
        match buildRegion f b reg with
        | .ok (.error e) => some (.fieldErr f.Name e)
        | _ => none) := by
  intro fields
  induction fields with
  | nil =>
    intro regs errs h
    simp only [buildPhase, Outcome.ok.injEq, Prod.mk.injEq] at h
    obtain ⟨h1, h2⟩ := h
    subst h1; subst h2
    simp
  | cons f rest ih =>
    intro regs errs h
    simp only [buildPhase] at h
    split at h
    · simp at h
    · simp at h
    · next e heq =>
      split at h
      · simp at h
      · simp at h
      · next rs es heq2 =>
        simp only [Outcome.ok.injEq, Prod.mk.injEq] at h
        obtain ⟨h1, h2⟩ := h
        obtain ⟨ihr, ihe⟩ := ih rs es heq2
        subst h1; subst h2
        constructor
        · rw [List.filterMap_cons]
          simp [heq, ihr]
        · rw [List.filterMap_cons]
          simp [heq, ihe]
    · next r heq =>
      split at h
      · simp at h
      · simp at h
      · next rs es heq2 =>
        simp only [Outcome.ok.injEq, Prod.mk.injEq] at h
        obtain ⟨h1, h2⟩ := h
        obtain ⟨ihr, ihe⟩ := ih rs es heq2
        subst h1; subst h2
        constructor
        · rw [List.filterMap_cons]
          simp [heq, ihr]
        · rw [List.filterMap_cons]
          simp [heq, ihe]

/-- Case analysis on a normally returning `Analyze` call: the returned
layout is the phase-1 layout (when building failed), the resolved layout
with the validation error appended, or the collision-swept resolved
layout. -/
lemma analyze_cases (l : TypeLayout) (reg : TypeRegistry) (a : AnalyzedLayout)
    (ha : analyzeOut (some l) reg = some a) :
    ∃ regs errs, buildPhase l.Anno.Size reg l.Fields = .ok (regs, errs) ∧
      ((errs ≠ [] ∧ a = ⟨l.Name, l.Anno.Size, regs, errs⟩) ∨
       (errs = [] ∧
        ((∃ e, validateCountFields (calculateBoundaries ⟨l.Name, l.Anno.Size, regs, errs⟩) l
              = .ok (some e) ∧
            a = { calculateBoundaries ⟨l.Name, l.Anno.Size, regs, errs⟩ with
                    Errors := (calculateBoundaries ⟨l.Name, l.Anno.Size, regs, errs⟩).Errors
                      ++ [.vErr e] }) ∨
         (validateCountFields (calculateBoundaries ⟨l.Name, l.Anno.Size, regs, errs⟩) l
              = .ok none ∧
            a = detectCollisions (calculateBoundaries ⟨l.Name, l.Anno.Size, regs, errs⟩))))) := by
  have hA : ∃ goErr, Analyze (some l) reg = .ok (some a, goErr) := by
    unfold analyzeOut at ha
    split at ha
    · next a' goErr heq =>
      rw [ha] at heq
      exact ⟨goErr, heq⟩
    · exact absurd ha (by simp)
  obtain ⟨goErr, hA⟩ := hA
  rcases hbp : buildPhase l.Anno.Size reg l.Fields with _ | _ | ⟨regs, errs⟩
  · simp only [Analyze, hbp] at hA
    exact Outcome.noConfusion hA
  · simp only [Analyze, hbp] at hA
    exact Outcome.noConfusion hA
  · simp only [Analyze, hbp] at hA
    refine ⟨regs, errs, rfl, ?_⟩
    by_cases hlen : errs.length > 0
    · rw [if_pos hlen] at hA
      simp only [Outcome.ok.injEq, Prod.mk.injEq, Option.some.injEq] at hA
      exact Or.inl ⟨List.length_pos.mp hlen, hA.1.symm⟩
    · have herrs : errs = [] := by
        rcases errs with _ | ⟨x, xs⟩
        · rfl
        · exact absurd (by simp : (x :: xs).length > 0) hlen
      rw [if_neg hlen] at hA
      refine Or.inr ⟨herrs, ?_⟩
      rcases hval : validateCountFields
          (calculateBoundaries ⟨l.Name, l.Anno.Size, regs, errs⟩) l with _ | _ | oe
      · simp only [hval] at hA
        exact Outcome.noConfusion hA
      · simp only [hval] at hA
        exact Outcome.noConfusion hA
      · rcases oe with _ | e
        · simp only [hval, Outcome.ok.injEq, Prod.mk.injEq, Option.some.injEq] at hA
          exact Or.inr ⟨rfl, hA.1.symm⟩
        · simp only [hval, Outcome.ok.injEq, Prod.mk.injEq, Option.some.injEq] at hA
          exact Or.inl ⟨e, rfl, hA.1.symm⟩

/-- An empty collision sweep means every adjacent fixed pair is
non-overlapping. -/
lemma collisionErrors_eq_nil (rs : List Region) (h : collisionErrors rs = []) :
    fixedPairsOk rs := by
  induction rs with
  | nil => trivial
  | cons r1 rest ih =>
    cases rest with
    | nil => trivial
    | cons r2 rest2 =>
      rw [collisionErrors] at h
      rcases List.append_eq_nil.mp h with ⟨h1, h2⟩
      refine ⟨?_, ih h2⟩
      intro hk1 hk2
      by_contra hgt
      rw [not_le] at hgt
      rw [if_pos ⟨hk1, hk2, hgt⟩] at h1
      simp at h1

/-- Membership through the stable insert. -/
lemma mem_insertByStart {r x : Region} {l : List Region}
    (h : r ∈ insertByStart x l) : r = x ∨ r ∈ l := by
  induction l with
  | nil => simpa [insertByStart] using h
  | cons y ys ih =>
    rw [insertByStart] at h
    split at h
    · rcases List.mem_cons.mp h with h' | h'
      · exact Or.inl h'
      · exact Or.inr h'
    · rcases List.mem_cons.mp h with h' | h'
      · exact Or.inr (h' ▸ List.mem_cons_self y ys)
      · rcases ih h' with h'' | h''
        · exact Or.inl h''
        · exact Or.inr (List.mem_cons_of_mem _ h'')

/-- Sorting does not invent regions. -/
lemma mem_sortRegions {r : Region} {l : List Region} (h : r ∈ sortRegions l) : r ∈ l := by
  induction l with
  | nil => simp [sortRegions] at h
  | cons x xs ih =>
    rw [sortRegions] at h
    rcases mem_insertByStart h with h' | h'
    · exact h' ▸ List.mem_cons_self x xs
    · exact List.mem_cons_of_mem _ (ih h')

/-- Every element of a positional map is the image of some list element. -/
lemma mem_mapIdxGo {r : Region} {f : Nat → Region → Region} :
    ∀ {i : Nat} {l : List Region}, r ∈ mapIdxGo f i l → ∃ j x, x ∈ l ∧ r = f j x := by
  intro i l
  induction l generalizing i with
  | nil => intro h; simp [mapIdxGo] at h
  | cons y ys ih =>
    intro h
    rw [mapIdxGo] at h
    rcases List.mem_cons.mp h with h' | h'
    · exact ⟨i, y, List.mem_cons_self _ _, h'⟩
    · obtain ⟨j, x, hx, hr⟩ := ih h'
      exact ⟨j, x, List.mem_cons_of_mem _ hx, hr⟩

/-- The implicit-start pass never touches fixed regions. -/
lemma fixed_mem_calcImplicitStarts {r : Region} {rs : List Region}
    (h : r ∈ calcImplicitStarts rs) (hk : r.Kind = .FixedRegion) : r ∈ rs := by
  obtain ⟨j, x, hx, hr⟩ := mem_mapIdxGo h
  by_cases hcond : x.Kind = .DynamicRegion ∧ x.Direction = .StartEnd
      ∧ x.Field.Layout.StartAt < 0
  · exfalso
    rw [if_pos hcond] at hr
    subst hr
    simp only at hk
    rw [hcond.1] at hk
    exact absurd hk (by simp)
  · rw [if_neg hcond] at hr
    subst hr
    exact hx

/-- The boundary pass never touches fixed regions. -/
lemma fixed_mem_calcBoundariesPass {r : Region} {b : Int} {rs : List Region}
    (h : r ∈ calcBoundariesPass b rs) (hk : r.Kind = .FixedRegion) : r ∈ rs := by
  obtain ⟨j, x, hx, hr⟩ := mem_mapIdxGo h
  by_cases hxk : x.Kind = .FixedRegion
  · rw [if_pos hxk] at hr
    subst hr
    exact hx
  · exfalso
    rw [if_neg hxk] at hr
    by_cases hxd : x.Direction = .StartEnd
    · rw [if_pos hxd] at hr
      subst hr
      simp only at hk
      exact hxk hk
    · rw [if_neg hxd] at hr
      subst hr
      simp only at hk
      exact hxk hk

/-- A successfully built **fixed** region records its field, starts at the
declared offset, and ends exactly `size` bytes later, where `size` is the
registry size of the field's type. -/
lemma buildRegion_ok_fixed {f : Field} {b : Int} {reg : TypeRegistry} {r : Region}
    (h : buildRegion f b reg = .ok (.ok r)) (hk : r.Kind = .FixedRegion) :
    r.Field = f ∧ r.Start = f.Layout.Offset ∧ r.Boundary ≤ b ∧
    ∃ s, reg.SizeOf f.GoType = .ok (.ok s) ∧ 0 ≤ s ∧ r.Boundary = f.Layout.Offset + s := by
  simp only [buildRegion] at h
  by_cases hdir : f.Layout.Direction = .Fixed
  · rw [if_pos hdir] at h
    split at h
    · simp at h
    · simp at h
    · simp at h
    · next size heq =>
      split at h
      · simp at h
      · next hslt =>
        split at h
        · simp at h
        · next hble =>
          simp only [Outcome.ok.injEq, Except.ok.injEq] at h
          subst h
          exact ⟨rfl, rfl, not_lt.mp hble, size, heq, by omega, rfl⟩
  · rw [if_neg hdir] at h
    split at h
    · simp at h
    · simp at h
    · simp at h
    · next size heq =>
      split at h
      · simp at h
      · split at h
        · simp at h
        · split at h
          · simp at h
          · simp at h
          · simp at h
          · next esize heq2 =>
            split at h
            · simp at h
            · simp only [Outcome.ok.injEq, Except.ok.injEq] at h
              subst h
              exfalso
              split at hk
              · simp at hk
              · split at hk
                · simp at hk
                · simp at hk

/-- Every fixed region of any `Analyze` output originates from a
successful `buildRegion` call on one of the layout's fields (fixed regions
pass unchanged through sorting and both resolver passes). -/
lemma mem_analyze_fixed (l : TypeLayout) (reg : TypeRegistry) (a : AnalyzedLayout)
    (r : Region) (ha : analyzeOut (some l) reg = some a) (hr : r ∈ a.Regions)
    (hk : r.Kind = .FixedRegion) :
    ∃ f, f ∈ l.Fields ∧ buildRegion f l.Anno.Size reg = .ok (.ok r) := by
  obtain ⟨regs, errs, hbp, hcase⟩ := analyze_cases l reg a ha
  have hregs : r ∈ regs := by
    rcases hcase with ⟨-, rfl⟩ | ⟨-, hrest⟩
    · exact hr
    · have hmem2 : r ∈ (calculateBoundaries ⟨l.Name, l.Anno.Size, regs, errs⟩).Regions := by
        rcases hrest with ⟨e, -, rfl⟩ | ⟨-, rfl⟩
        · exact hr
        · exact hr
      have hmem3 : r ∈ calcBoundariesPass l.Anno.Size
          (calcImplicitStarts (sortRegions regs)) := hmem2
      exact mem_sortRegions
        (fixed_mem_calcImplicitStarts (fixed_mem_calcBoundariesPass hmem3 hk) hk)
  obtain ⟨hre, -⟩ := buildPhase_ok_filterMap l.Anno.Size reg l.Fields regs errs hbp
  rw [hre] at hregs
  obtain ⟨f, hf, hmatch⟩ := List.mem_filterMap.mp hregs
  refine ⟨f, hf, ?_⟩
  rcases hb2 : buildRegion f l.Anno.Size reg with _ | _ | er
  · rw [hb2] at hmatch; simp at hmatch
  · rw [hb2] at hmatch; simp at hmatch
  · rcases er with e | r'
    · rw [hb2] at hmatch; simp at hmatch
    · rw [hb2] at hmatch
      simp only [Option.some.injEq] at hmatch
      rw [hmatch]

/-- Every `Analyze` output carries the annotation's buffer size. -/
lemma analyzeOut_bufferSize (l : TypeLayout) (reg : TypeRegistry) (a : AnalyzedLayout)
    (ha : analyzeOut (some l) reg = some a) : a.BufferSize = l.Anno.Size := by
  obtain ⟨regs, errs, -, hcase⟩ := analyze_cases l reg a ha
  rcases hcase with ⟨-, rfl⟩ | ⟨-, hrest⟩
  · rfl
  · rcases hrest with ⟨e, -, rfl⟩ | ⟨-, rfl⟩
    · rfl
    · rfl

/-- C1 (amended): for every `Analyze` result with an empty error list,
(a) every pair of consecutive fixed regions in the final region order is
non-overlapping (earlier boundary at most later start) — exactly what
`detectCollisions` enforces — and (b) every fixed region's boundary is at
most the buffer size — exactly what `buildRegion` enforces. Nothing more
survives: `c1_counterexample` gives one valid layout with two intersecting
fixed intervals (non-consecutive in the sorted order), a fixed interval
starting below 0, and a dynamic interval reaching past the buffer size. -/
theorem c1_valid_fixed_guarantees (l : TypeLayout) (reg : TypeRegistry)
    (a : AnalyzedLayout) (ha : analyzeOut (some l) reg = some a) (hv : a.Errors = []) :
    fixedPairsOk a.Regions ∧ fixedWithinBuffer a := by
  constructor
  · obtain ⟨regs, errs, hbp, hcase⟩ := analyze_cases l reg a ha
    rcases hcase with ⟨hne, rfl⟩ | ⟨hnil, hrest⟩
    · exact absurd hv hne
    · rcases hrest with ⟨e, hval, rfl⟩ | ⟨hval, rfl⟩
      · exfalso
        have h2 : (calculateBoundaries ⟨l.Name, l.Anno.Size, regs, errs⟩).Errors
            ++ [LErr.vErr e] = [] := hv
        simp at h2
      · have h2 : (calculateBoundaries ⟨l.Name, l.Anno.Size, regs, errs⟩).Errors
            ++ collisionErrors (calculateBoundaries ⟨l.Name, l.Anno.Size, regs, errs⟩).Regions
            = [] := hv
        rcases List.append_eq_nil.mp h2 with ⟨-, hcoll⟩
        exact collisionErrors_eq_nil _ hcoll
  · intro r hr hk
    obtain ⟨f, -, hbr⟩ := mem_analyze_fixed l reg a r ha hr hk
    obtain ⟨-, -, hble, -⟩ := buildRegion_ok_fixed hbr hk
    rw [analyzeOut_bufferSize l reg a ha]
    exact hble

/-- C1 (amended, witness): the theorem applied to the valid layout
`c1Layout`. -/
theorem c1_valid_fixed_guarantees_witness :
    fixedPairsOk c1Out.Regions ∧ fixedWithinBuffer c1Out :=
  c1_valid_fixed_guarantees c1Layout NewTypeRegistry c1Out rfl rfl

/-- C2 (amended): in every layout `Analyze` returns, each **fixed** region
satisfies `start = offset` and `start + sizeOf(fieldType) = boundary`. (The
claimed strict direction inequalities for dynamic regions do not hold in
general: `c2_counterexample` exhibits a valid layout with an inverted
`StartEnd` interval.) -/
theorem c2_fixed_region_equation (l : TypeLayout) (reg : TypeRegistry)
    (a : AnalyzedLayout) (r : Region) (ha : analyzeOut (some l) reg = some a)
    (hr : r ∈ a.Regions) (hk : r.Kind = .FixedRegion) :
    r.Start = r.Field.Layout.Offset ∧
    ∃ s, reg.SizeOf r.Field.GoType = .ok (.ok s) ∧ 0 ≤ s ∧ r.Boundary = r.Start + s := by
  obtain ⟨f, -, hbr⟩ := mem_analyze_fixed l reg a r ha hr hk
  obtain ⟨hfield, hstart, -, s, hs, hnn, hbd⟩ := buildRegion_ok_fixed hbr hk
  rw [hfield]
  exact ⟨hstart, s, hs, hnn, by rw [hstart]; exact hbd⟩

/-- C2 (amended, witness): the theorem applied to the first (fixed) region
of the valid layout `c2Layout`. -/
theorem c2_fixed_region_equation_witness :
    (c2Out.Regions.getD 0 region0).Start
        = (c2Out.Regions.getD 0 region0).Field.Layout.Offset ∧
    ∃ s, TypeRegistry.SizeOf NewTypeRegistry (c2Out.Regions.getD 0 region0).Field.GoType
          = .ok (.ok s) ∧ 0 ≤ s ∧
        (c2Out.Regions.getD 0 region0).Boundary = (c2Out.Regions.getD 0 region0).Start + s :=
  c2_fixed_region_equation c2Layout NewTypeRegistry c2Out
    (c2Out.Regions.getD 0 region0) rfl (by decide) rfl

/-- C9: when at least one field fails to build, `Analyze` stops after
phase 1 — before the boundary resolver — returning the un-resolved
phase-1 regions and a non-nil error, and the error list carries exactly
one entry per failing field (remaining fields were still processed). -/
theorem c9_build_errors_collected (l : TypeLayout) (reg : TypeRegistry)
    (regs : List Region) (errs : List LErr)
    (hb : buildPhase l.Anno.Size reg l.Fields = .ok (regs, errs)) (hne : errs ≠ []) :
    Analyze (some l) reg =
      .ok (some ⟨l.Name, l.Anno.Size, regs, errs⟩, some (.layoutHasErrors errs.length)) ∧
    regs = l.Fields.filterMap (fun f =>
      match buildRegion f l.Anno.Size reg with
      | .ok (.ok r) => some r
      | _ => none) ∧
    errs = l.Fields.filterMap (fun f =>
      match buildRegion f l.Anno.Size reg with
      | .ok (.error e) => some (.fieldErr f.Name e)
      | _ => none) := by
  refine ⟨?_, (buildPhase_ok_filterMap l.Anno.Size reg l.Fields regs errs hb).1,
          (buildPhase_ok_filterMap l.Anno.Size reg l.Fields regs errs hb).2⟩
  simp only [Analyze, hb]
  rw [if_pos (List.length_pos.mpr hne)]

/-- C9 (witness): the theorem applied to `c9Layout`, whose `Bad` field has
an unregistered type while `Good` builds fine: the `Good` region is still
produced, one error is collected, and `Analyze` returns it un-resolved with
a non-nil error. -/
theorem c9_build_errors_collected_witness :
    Analyze (some c9Layout) NewTypeRegistry =
      .ok (some ⟨"P9", 8, [c9GoodRegion], [c9Err]⟩, some (.layoutHasErrors 1)) :=
  (c9_build_errors_collected c9Layout NewTypeRegistry [c9GoodRegion] [c9Err]
    rfl (by simp)).1

/-- Positional maps preserve length. -/
lemma mapIdxGo_length (f : Nat → Region → Region) :
    ∀ (i : Nat) (l : List Region), (mapIdxGo f i l).length = l.length
  | _, [] => rfl
  | i, r :: rs => by
      rw [mapIdxGo]
      simp [mapIdxGo_length f (i + 1) rs]

/-- Element `j` of a positional map started at `i` is `f (i + j)` of
element `j`. -/
lemma mapIdxGo_getD (f : Nat → Region → Region) :
    ∀ (l : List Region) (i j : Nat) (d : Region), j < l.length →
      (mapIdxGo f i l).getD j d = f (i + j) (l.getD j d) := by
  intro l
  induction l with
  | nil => intro i j d h; simp at h
  | cons x xs ih =>
    intro i j d h
    cases j with
    | zero => simp [mapIdxGo]
    | succ j' =>
      rw [mapIdxGo]
      simp only [List.getD_cons_succ]
      rw [ih (i + 1) j' d (by simpa using h)]
      congr 1
      omega

/-- Reversing the first `j + 1` elements puts element `j` in front. -/
lemma take_reverse_getD :
    ∀ (l : List Region) (j : Nat) (d : Region), j < l.length →
      (l.take (j + 1)).reverse = l.getD j d :: (l.take j).reverse := by
  intro l
  induction l with
  | nil => intro j d h; simp at h
  | cons x xs ih =>
    intro j d h
    cases j with
    | zero => simp
    | succ j' =>
      have h' : j' < xs.length := by simpa using h
      simp only [List.take_succ_cons, List.reverse_cons, List.getD_cons_succ]
      rw [ih j' d h']
      simp

/-- Dropping `j` elements puts element `j` in front. -/
lemma drop_getD_cons :
    ∀ (l : List Region) (j : Nat) (d : Region), j < l.length →
      l.drop j = l.getD j d :: l.drop (j + 1) := by
  intro l
  induction l with
  | nil => intro j d h; simp at h
  | cons x xs ih =>
    intro j d h
    cases j with
    | zero => simp
    | succ j' => simpa using ih j' d (by simpa using h)

/-- C7: an unanchored `start-end` dynamic region sitting (in start-sorted
order) immediately between two fixed regions resolves to
`start = previous fixed region's boundary` and
`boundary = next fixed region's start`. -/
theorem c7_startend_fill (a : AnalyzedLayout) (j : Nat)
    (hlen : j + 2 < (sortRegions a.Regions).length)
    (hprev : ((sortRegions a.Regions).getD j region0).Kind = .FixedRegion)
    (hk : ((sortRegions a.Regions).getD (j + 1) region0).Kind = .DynamicRegion)
    (hdir : ((sortRegions a.Regions).getD (j + 1) region0).Direction = .StartEnd)
    (hsa : ((sortRegions a.Regions).getD (j + 1) region0).Field.Layout.StartAt < 0)
    (hnext : ((sortRegions a.Regions).getD (j + 2) region0).Kind = .FixedRegion) :
    ((calculateBoundaries a).Regions.getD (j + 1) region0).Start =
      ((sortRegions a.Regions).getD j region0).Boundary ∧
    ((calculateBoundaries a).Regions.getD (j + 1) region0).Boundary =
      ((sortRegions a.Regions).getD (j + 2) region0).Start := by
  set rs := sortRegions a.Regions with hrs
  have hj : j < rs.length := by omega
  have hj1 : j + 1 < rs.length := by omega
  have himp1 : (calcImplicitStarts rs).getD (j + 1) region0 =
      { rs.getD (j + 1) region0 with Start := findPreviousEnd rs (j + 1) } := by
    rw [calcImplicitStarts, mapIdxGo_getD _ rs 0 (j + 1) region0 hj1]
    simp only [Nat.zero_add]
    rw [if_pos ⟨hk, hdir, hsa⟩]
  have himp2 : (calcImplicitStarts rs).getD (j + 2) region0 = rs.getD (j + 2) region0 := by
    rw [calcImplicitStarts, mapIdxGo_getD _ rs 0 (j + 2) region0 hlen]
    simp only [Nat.zero_add]
    have hnd : ¬((rs.getD (j + 2) region0).Kind = RegionKind.DynamicRegion
        ∧ (rs.getD (j + 2) region0).Direction = PackDirection.StartEnd
        ∧ (rs.getD (j + 2) region0).Field.Layout.StartAt < 0) := by
      rintro ⟨h1, -, -⟩
      rw [hnext] at h1
      exact RegionKind.noConfusion h1
    rw [if_neg hnd]
  have hfpe : findPreviousEnd rs (j + 1) = (rs.getD j region0).Boundary := by
    unfold findPreviousEnd
    rw [take_reverse_getD rs j region0 hj]
    rw [findPrevAux]
    rw [if_pos hprev]
  have hlen1 : (calcImplicitStarts rs).length = rs.length := by
    rw [calcImplicitStarts, mapIdxGo_length]
  have himpK : ((calcImplicitStarts rs).getD (j + 1) region0).Kind
      = (rs.getD (j + 1) region0).Kind := by rw [himp1]
  have himpD : ((calcImplicitStarts rs).getD (j + 1) region0).Direction
      = (rs.getD (j + 1) region0).Direction := by rw [himp1]
  have hbnd : (calcBoundariesPass a.BufferSize (calcImplicitStarts rs)).getD (j + 1) region0 =
      { (calcImplicitStarts rs).getD (j + 1) region0 with
        Boundary := findNextStart (calcImplicitStarts rs) (j + 1) a.BufferSize } := by
    rw [calcBoundariesPass,
        mapIdxGo_getD _ _ 0 (j + 1) region0 (by rw [hlen1]; exact hj1)]
    simp only [Nat.zero_add]
    have hc1 : ¬(((calcImplicitStarts rs).getD (j + 1) region0).Kind
        = RegionKind.FixedRegion) := by
      rw [himpK, hk]
      exact fun h => RegionKind.noConfusion h
    have hc2 : ((calcImplicitStarts rs).getD (j + 1) region0).Direction
        = PackDirection.StartEnd := by
      rw [himpD]
      exact hdir
    rw [if_neg hc1, if_pos hc2]
  have hfns : findNextStart (calcImplicitStarts rs) (j + 1) a.BufferSize =
      (rs.getD (j + 2) region0).Start := by
    unfold findNextStart
    rw [drop_getD_cons (calcImplicitStarts rs) (j + 2) region0 (by rw [hlen1]; exact hlen)]
    rw [himp2]
    rw [findNextAux]
    rw [if_pos hnext]
  have hcb : (calculateBoundaries a).Regions =
      calcBoundariesPass a.BufferSize (calcImplicitStarts rs) := by
    simp [calculateBoundaries, hrs]
  constructor
  · rw [hcb, hbnd, himp1]
    simp [hfpe]
  · rw [hcb, hbnd]
    simp [hfns]

/-- C7 (witness): the theorem applied to the spec's example (phase-1
regions `c7A` of `c7Layout`), plus the full-pipeline evaluation: `Body`
resolves to `[2, 4088)`. -/
theorem c7_startend_fill_witness :
    ((calculateBoundaries c7A).Regions.getD 1 region0).Start = 2 ∧
    ((calculateBoundaries c7A).Regions.getD 1 region0).Boundary = 4088 ∧
    analyzeOut (some c7Layout) NewTypeRegistry = some c7Out ∧
    c7Out.IsValid = true ∧
    (c7Out.Regions.getD 1 region0).Field.Name = "Body" ∧
    (c7Out.Regions.getD 1 region0).Start = 2 ∧
    (c7Out.Regions.getD 1 region0).Boundary = 4088 := by
  have h := c7_startend_fill c7A 0 (by decide) (by decide) (by decide) (by decide)
    (by decide) (by decide)
  exact ⟨h.1, h.2, rfl, rfl, rfl, rfl, rfl⟩

end Analyzer
